import Mathlib

/-!
Shallow embedding of the decision-and-coordination core of the MonsterWar
combat simulation (an EnTT-based entity-component store mutated by a fixed
per-tick sequence of systems), together with proofs checking the
natural-language specification against it.

Modelling conventions:
* `float` values are embedded as `ℚ`.  Every claim-relevant comparison in the
  source is exact on its inputs (no rounding occurs on the paths the claims
  quantify over), with one exception: the velocity written by
  `FollowPathSystem` is `glm::normalize(direction) * speed`, whose value is
  irrational in general and is NaN when `direction` is the zero vector.  That
  written value is therefore kept symbolic (`VelocityValue` below) rather
  than numeric; no system in scope reads it back.
* `glm::length(direction) < 5.0f` is embedded as `dot(direction,direction)
  < 25`: `sqrt` is monotone and exact at `25`, so the two tests agree.
* An `entt::registry` is embedded as a list of per-entity records, one
  record per live entity; views iterate in list order (EnTT iterates its
  pools in a fixed deterministic order; every claim is either per-entity or
  insensitive to which fixed order is chosen, except first-match scans,
  which use the same list order).  Destroying an entity removes its whole
  record, hence all its components.
* Tag components (zero-payload markers) are `Bool` fields; data components
  are `Option` fields; `entt::entity` handles are `Nat` identifiers.
* `entt::dispatcher::enqueue` appends to a FIFO list of events.
-/

/-- Two-dimensional vector over ℚ, embedding `glm::vec2`. -/
abbrev Vec2 := ℚ × ℚ

/-- Componentwise subtraction of `glm::vec2` (used for `target - position`). -/
def vsub (a b : Vec2) : Vec2 := (a.1 - b.1, a.2 - b.2)

/-- Squared Euclidean norm, `glm::dot(v, v)`. -/
def normSq (v : Vec2) : ℚ := v.1 * v.1 + v.2 * v.2

/-- Modelled from the spec and the call sites: `engine::utils::distanceSquared`
(declared in `engine/utils/math.h`, whose implementation is not in the
sources) — the squared Euclidean distance written `distance²` in the spec. -/
def distanceSquared (a b : Vec2) : ℚ :=
  (a.1 - b.1) * (a.1 - b.1) + (a.2 - b.2) * (a.2 - b.2)

/-- `game::defs::UNIT_RADIUS` from `game/defs/constants.h`. -/
def UNIT_RADIUS : ℚ := 16

/-- `game::component::StatsComponent` (field names as in the source). -/
structure StatsComponent where
  hp_ : ℚ := 0
  max_hp_ : ℚ := 0
  atk_ : ℚ := 0
  def_ : ℚ := 0
  range_ : ℚ := 0
  atk_interval_ : ℚ := 0
  atk_timer_ : ℚ := 0
  level_ : Int := 1
  rarity_ : Int := 1
deriving DecidableEq

/-- `game::component::EnemyComponent`. -/
structure EnemyComponent where
  target_waypoint_id_ : Int
  speed_ : ℚ
deriving DecidableEq

/-- `game::component::PlayerComponent`. -/
structure PlayerComponent where
  cost_ : Int := 0
deriving DecidableEq

/-- `game::data::WaypointNode`: authored waypoint-graph node. -/
structure WaypointNode where
  id_ : Int
  position_ : Vec2
  next_node_ids_ : List Int
deriving DecidableEq

/-- Identifiers of the animations requested by the systems in scope
(`"attack"_hs`, `"ranged_attack"_hs`, `"heal"_hs`, `"idle"_hs`, `"walk"_hs`). -/
inductive AnimId where
  | attack
  | ranged_attack
  | heal
  | idle
  | walk
deriving DecidableEq

/-- The value stored in a `VelocityComponent`.  The systems in scope only
ever write it (movement integration, which reads it, is external), so the
possibly-irrational value `glm::normalize(d) * s` is kept symbolic:
* `vec v` — an exactly-representable vector (spawn value, or the `{0,0}`
  written by ranged attack dispatch);
* `unitScaled d s` — `glm::normalize(d) * s` for `d ≠ (0,0)`: the unit
  vector along `d` scaled by `s`;
* `nanVec` — the value `glm::normalize((0,0)) * s`: glm defines
  `normalize(v) = v * inversesqrt(dot(v, v))`, and under IEEE-754 float
  semantics `dot((0,0),(0,0)) = 0`, `inversesqrt(0) = 1/sqrt(0) = +inf`, and
  `0 * +inf = NaN`, so both components are NaN (and remain NaN after the
  multiplication by `speed`). -/
inductive VelocityValue where
  | vec (v : Vec2)
  | unitScaled (d : Vec2) (s : ℚ)
  | nanVec
deriving DecidableEq

/-- `glm::normalize(d) * s` as a `VelocityValue` (see `VelocityValue`). -/
def normTimesSpeed (d : Vec2) (s : ℚ) : VelocityValue :=
  if d = ((0 : ℚ), (0 : ℚ)) then VelocityValue.nanVec else VelocityValue.unitScaled d s

/-- One live entity of the `entt::registry`: its identifier, its optional
data components, and its zero-payload tags as booleans.  `target` embeds
`TargetComponent` (payload: the referenced entity handle), `blockedBy`
embeds `BlockedByComponent` (payload: the blocker's handle; produced by the
external melee-engagement detector, read here only for presence and the
handle). -/
structure EntityRec where
  eid : Nat
  enemy : Option EnemyComponent := none
  player : Option PlayerComponent := none
  stats : Option StatsComponent := none
  transform : Option Vec2 := none
  velocity : Option VelocityValue := none
  target : Option Nat := none
  blockedBy : Option Nat := none
  dead : Bool := false
  attackReady : Bool := false
  actionLock : Bool := false
  healer : Bool := false
  injured : Bool := false
  rangedUnit : Bool := false
  meleeUnit : Bool := false
  faceLeft : Bool := false
deriving DecidableEq

/-- The entity store: one record per live entity, in pool-iteration order. -/
abbrev Registry := List EntityRec

/-- Events exchanged through the `entt::dispatcher` by the systems in scope:
`PlayAnimationEvent{entity, animation_id, loop}`, `EnemyArriveHomeEvent{}`
(payload-less), `AnimationFinishedEvent{entity}`. -/
inductive GEvent where
  | playAnimation (entity : Nat) (anim : AnimId) (loop : Bool)
  | enemyArriveHome
  | animationFinished (entity : Nat)
deriving DecidableEq

/-- `registry.try_get` / handle lookup: the record of the entity with
identifier `i`, if it is live. -/
def getEnt (r : Registry) (i : Nat) : Option EntityRec :=
  r.find? (fun e => e.eid == i)

/-- `registry.valid(i)`: whether the handle refers to a live entity. -/
def validEnt (r : Registry) (i : Nat) : Bool :=
  r.any (fun e => e.eid == i)

/-! ## Cooldown timer — `TimerSystem::update` (`timer_system.cpp`) -/

/-- Per-entity action of `TimerSystem::update` for time step `dt`: the view
is `view<StatsComponent>(exclude<AttackReadyTag>)`; for each viewed entity
`atk_timer_ += dt`, and if `atk_timer_ >= atk_interval_` the
`AttackReadyTag` is attached (the timer is not reset here). -/
def timerStep (dt : ℚ) (e : EntityRec) : EntityRec :=
  match e.stats with
  | none => e
  | some st =>
    if e.attackReady then e
    else
      let st2 := { st with atk_timer_ := st.atk_timer_ + dt }
      if st2.atk_interval_ ≤ st2.atk_timer_ then
        { e with stats := some st2, attackReady := true }
      else
        { e with stats := some st2 }

/-- `TimerSystem::update(registry, delta_time)`. -/
def TimerSystem.update (r : Registry) (dt : ℚ) : Registry :=
  r.map (timerStep dt)

/-! ## Attack dispatch — `AttackStarterSystem::update` (`attack_starter_system.cpp`)

Three sequential view passes.  Each pass only mutates components of the
entity currently visited and emits events in iteration order, so each pass
is a `map` over the registry with concatenated event output. -/

/-- Pass 1, melee enemies: view `<EnemyComponent, BlockedByComponent,
AttackReadyTag, StatsComponent>`.  Attach `ActionLockTag`
(`emplace_or_replace`), remove `AttackReadyTag`, reset `atk_timer_ = 0`,
enqueue `PlayAnimation("attack", loop=false)`. -/
def dispatchMelee (e : EntityRec) : EntityRec × List GEvent :=
  match e.enemy, e.blockedBy, e.stats with
  | some _, some _, some st =>
    if e.attackReady then
      ({ e with actionLock := true, attackReady := false,
                stats := some { st with atk_timer_ := 0 } },
       [GEvent.playAnimation e.eid AnimId.attack false])
    else (e, [])
  | _, _, _ => (e, [])

/-- Pass 2, ranged enemies: view `<EnemyComponent, TargetComponent,
AttackReadyTag, StatsComponent>(exclude<BlockedByComponent>)`.  Same
lock/clear/reset as pass 1, additionally zero the velocity when a
`VelocityComponent` is present (`try_get`), enqueue
`PlayAnimation("ranged_attack", loop=false)`. -/
def dispatchRanged (e : EntityRec) : EntityRec × List GEvent :=
  match e.enemy, e.target, e.stats, e.blockedBy with
  | some _, some _, some st, none =>
    if e.attackReady then
      ({ e with actionLock := true, attackReady := false,
                stats := some { st with atk_timer_ := 0 },
                velocity := e.velocity.map (fun _ => VelocityValue.vec (0, 0)) },
       [GEvent.playAnimation e.eid AnimId.ranged_attack false])
    else (e, [])
  | _, _, _, _ => (e, [])

/-- Pass 3, friendly (player) units: view `<PlayerComponent, TargetComponent,
AttackReadyTag, StatsComponent>`.  Remove `AttackReadyTag`, reset
`atk_timer_ = 0`, enqueue `PlayAnimation("heal", loop=false)` when the
entity carries `HealerTag`, else `PlayAnimation("attack", loop=false)`.
No `ActionLockTag` is attached. -/
def dispatchPlayer (e : EntityRec) : EntityRec × List GEvent :=
  match e.player, e.target, e.stats with
  | some _, some _, some st =>
    if e.attackReady then
      ({ e with attackReady := false, stats := some { st with atk_timer_ := 0 } },
       [if e.healer then GEvent.playAnimation e.eid AnimId.heal false
        else GEvent.playAnimation e.eid AnimId.attack false])
    else (e, [])
  | _, _, _ => (e, [])

/-- One view pass: update every entity in iteration order and concatenate
the enqueued events. -/
def runPass (step : EntityRec → EntityRec × List GEvent) (r : Registry) :
    Registry × List GEvent :=
  (r.map (fun e => (step e).1), (r.map (fun e => (step e).2)).flatten)

/-- `AttackStarterSystem::update(registry, dispatcher)`: the three passes in
source order; returns the updated registry and the enqueued events. -/
def AttackStarterSystem.update (r : Registry) : Registry × List GEvent :=
  let p1 := runPass dispatchMelee r
  let p2 := runPass dispatchRanged p1.1
  let p3 := runPass dispatchPlayer p2.1
  (p3.1, p1.2 ++ p2.2 ++ p3.2)

/-- The per-entity effect of one whole `AttackStarterSystem::update` run
(the composition of the three per-entity pass actions). -/
def attackStarterEntity (e : EntityRec) : EntityRec :=
  (dispatchPlayer (dispatchRanged (dispatchMelee e).1).1).1

/-- Membership in group 1's view `<EnemyComponent, BlockedByComponent,
AttackReadyTag, StatsComponent>`. -/
def meleeEligB (e : EntityRec) : Bool :=
  e.enemy.isSome && e.blockedBy.isSome && e.attackReady && e.stats.isSome

/-- Membership in group 2's view `<EnemyComponent, TargetComponent,
AttackReadyTag, StatsComponent>(exclude<BlockedByComponent>)`. -/
def rangedEligB (e : EntityRec) : Bool :=
  e.enemy.isSome && e.target.isSome && e.attackReady && e.stats.isSome &&
    e.blockedBy.isNone

/-- Membership in group 3's view `<PlayerComponent, TargetComponent,
AttackReadyTag, StatsComponent>`. -/
def playerEligB (e : EntityRec) : Bool :=
  e.player.isSome && e.target.isSome && e.attackReady && e.stats.isSome

/-- Whether an entity is processed (dispatched) by one of the three groups
during one `AttackStarterSystem::update` run: it matches group 1's view at
pass 1, or its pass-1 image matches group 2's view at pass 2, or its pass-2
image matches group 3's view at pass 3. -/
def dispatchedB (e : EntityRec) : Bool :=
  meleeEligB e || rangedEligB (dispatchMelee e).1 ||
    playerEligB (dispatchRanged (dispatchMelee e).1).1

/-- Whether a queued event is an attack-type `PlayAnimation` (animation
`attack`, `ranged_attack` or `heal`) addressed to entity `i`. -/
def attackTypeFor (i : Nat) : GEvent → Bool
  | GEvent.playAnimation j a _ =>
    j == i && (a == AnimId.attack || a == AnimId.ranged_attack || a == AnimId.heal)
  | _ => false

/-! ## Path navigation — `FollowPathSystem::update` (`followpath_system.cpp`) -/

/-- `waypoint_nodes.at(id)` modulo the exception: the node with identifier
`i`, or `none` where `std::unordered_map::at` would throw (fatal
precondition failure on malformed level data). -/
def wpLookup (ws : List WaypointNode) (i : Int) : Option WaypointNode :=
  ws.find? (fun w => w.id_ == i)

/-- Per-entity action of `FollowPathSystem::update`: the view is
`<EnemyComponent, TransformComponent, VelocityComponent>`.  For each viewed
entity: fetch the target waypoint (`none` result = the fatal `at` throw);
compute `direction = node.position - position`; if `length(direction) <
5.0` (embedded as `normSq direction < 25`):
* no outgoing edges — enqueue `EnemyArriveHomeEvent`, `emplace<DeadTag>`,
  `continue` (velocity and target waypoint untouched);
* otherwise — pick `next_node_ids_[randomInt(0, size-1)]`, store it as the
  new target, recompute `direction` against the new node (a second fallible
  `at`).
Finally write `velocity = glm::normalize(direction) * speed`.
`randomInt(0, size-1)` returns a uniformly sampled index in `[0, size-1]`;
it is embedded as the oracle `choice eid size`, normalised by `% size` to
express the contract that the returned index is in range. -/
def followStep (ws : List WaypointNode) (choice : Nat → Nat → Nat)
    (e : EntityRec) : Option (EntityRec × List GEvent) :=
  match e.enemy, e.transform, e.velocity with
  | some en, some pos, some _ =>
    match wpLookup ws en.target_waypoint_id_ with
    | none => none
    | some node =>
      let direction := vsub node.position_ pos
      if normSq direction < 25 then
        if node.next_node_ids_.length = 0 then
          some ({ e with dead := true }, [GEvent.enemyArriveHome])
        else
          let size := node.next_node_ids_.length
          let idx := choice e.eid size % size
          let nid := node.next_node_ids_.getD idx 0
          match wpLookup ws nid with
          | none => none
          | some node2 =>
            let d2 := vsub node2.position_ pos
            some ({ e with
                      enemy := some { en with target_waypoint_id_ := nid },
                      velocity := some (normTimesSpeed d2 en.speed_) }, [])
      else
        some ({ e with velocity := some (normTimesSpeed direction en.speed_) }, [])
  | _, _, _ => some (e, [])

/-- One fallible view pass: update every entity in iteration order,
concatenating events; `none` when the per-entity action throws. -/
def runPassO (step : EntityRec → Option (EntityRec × List GEvent)) :
    Registry → Option (Registry × List GEvent)
  | [] => some ([], [])
  | e :: rest =>
    match step e with
    | none => none
    | some (e2, ev) =>
      match runPassO step rest with
      | none => none
      | some (r2, evs) => some (e2 :: r2, ev ++ evs)

/-- `FollowPathSystem::update(registry, dispatcher, waypoint_nodes)`. -/
def FollowPathSystem.update (ws : List WaypointNode) (choice : Nat → Nat → Nat)
    (r : Registry) : Option (Registry × List GEvent) :=
  runPassO (followStep ws choice) r

/-! ## Target acquisition — `SetTargetSystem` (`set_target_system.cpp`) -/

/-- Per-entity action of `SetTargetSystem::updateHasTarget` (validation
pass), reading the registry `r` as it stood when the pass began (the pass
only removes `TargetComponent`s, which this pass never reads on other
entities).  View `<TransformComponent, StatsComponent, TargetComponent>`:
remove the target when the referent is no longer valid, when it lacks a
`TransformComponent`, or when `distanceSquared > (range_ + UNIT_RADIUS)²`. -/
def hasTargetStep (r : Registry) (e : EntityRec) : EntityRec :=
  match e.transform, e.stats, e.target with
  | some pos, some st, some tid =>
    match getEnt r tid with
    | none => { e with target := none }
    | some te =>
      match te.transform with
      | none => { e with target := none }
      | some tpos =>
        let range_radius := st.range_ + UNIT_RADIUS
        if range_radius * range_radius < distanceSquared pos tpos then
          { e with target := none }
        else e
  | _, _, _ => e

/-- `SetTargetSystem::updateHasTarget(registry)`. -/
def updateHasTarget (r : Registry) : Registry :=
  r.map (hasTargetStep r)

/-- Whether `en` is in the inner-scan view `<TransformComponent,
EnemyComponent>` and within `range_radius` of position `pos`. -/
def enemyInRange (pos : Vec2) (range_radius : ℚ) (en : EntityRec) : Bool :=
  match en.transform with
  | some epos => en.enemy.isSome && distanceSquared pos epos ≤ range_radius * range_radius
  | none => false

/-- Per-entity action of `SetTargetSystem::updateNoTargetPlayer`: view
`<TransformComponent, StatsComponent, PlayerComponent>(exclude
<TargetComponent, HealerTag>)`; linear-scan the `<TransformComponent,
EnemyComponent>` view in iteration order and lock the first enemy within
`range_ + UNIT_RADIUS` (inclusive). -/
def noTargetPlayerStep (r : Registry) (e : EntityRec) : EntityRec :=
  match e.transform, e.stats, e.player with
  | some pos, some st, some _ =>
    if e.target.isSome || e.healer then e
    else
      let range_radius := st.range_ + UNIT_RADIUS
      match r.find? (enemyInRange pos range_radius) with
      | some en => { e with target := some en.eid }
      | none => e
  | _, _, _ => e

/-- `SetTargetSystem::updateNoTargetPlayer(registry)`. -/
def updateNoTargetPlayer (r : Registry) : Registry :=
  r.map (noTargetPlayerStep r)

/-- Whether `p` is in the inner-scan view `<TransformComponent,
PlayerComponent>` and within `range_radius` of position `pos`. -/
def playerInRange (pos : Vec2) (range_radius : ℚ) (p : EntityRec) : Bool :=
  match p.transform with
  | some ppos => p.player.isSome && distanceSquared pos ppos ≤ range_radius * range_radius
  | none => false

/-- Per-entity action of `SetTargetSystem::updateNoTargetEnemy`: view
`<TransformComponent, StatsComponent, EnemyComponent, RangedUnitTag>
(exclude<TargetComponent>)`; first player within range in scan order. -/
def noTargetEnemyStep (r : Registry) (e : EntityRec) : EntityRec :=
  match e.transform, e.stats, e.enemy with
  | some pos, some st, some _ =>
    if !e.rangedUnit || e.target.isSome then e
    else
      let range_radius := st.range_ + UNIT_RADIUS
      match r.find? (playerInRange pos range_radius) with
      | some p => { e with target := some p.eid }
      | none => e
  | _, _, _ => e

/-- `SetTargetSystem::updateNoTargetEnemy(registry)`. -/
def updateNoTargetEnemy (r : Registry) : Registry :=
  r.map (noTargetEnemyStep r)

/-- Whether `c` is in the healer candidate view `<TransformComponent,
StatsComponent, PlayerComponent, InjuredTag>` and within `range_radius` of
the healer position `pos`. -/
def isHealCandidate (pos : Vec2) (range_radius : ℚ) (c : EntityRec) : Bool :=
  match c.transform, c.stats with
  | some cpos, some _ =>
    c.player.isSome && c.injured &&
      distanceSquared pos cpos ≤ range_radius * range_radius
  | _, _ => false

/-- `hp_ / max_hp_` of an entity carrying stats (the `hp_percent` of the
healer scan), 0 when no stats are present. -/
def hpPercent (c : EntityRec) : ℚ :=
  match c.stats with
  | some st => st.hp_ / st.max_hp_
  | none => 0

/-- The healer scan accumulator step: starting from `(best_target,
min_hp_percent) = (entt::null, 2.0)`, each candidate in range whose
`hp_percent` is strictly below the current minimum becomes the new best. -/
def healScanStep (pos : Vec2) (range_radius : ℚ) (acc : Option Nat × ℚ)
    (c : EntityRec) : Option Nat × ℚ :=
  if isHealCandidate pos range_radius c then
    if hpPercent c < acc.2 then (some c.eid, hpPercent c) else acc
  else acc

/-- Per-entity action of `SetTargetSystem::updateHealer`: view
`<TransformComponent, StatsComponent, HealerTag>`; scan the candidate view
in iteration order keeping the strictly-lowest `hp_percent`; then
`emplace_or_replace` the best target, or, if none was found, remove any
existing `TargetComponent`. -/
def healerStep (r : Registry) (e : EntityRec) : EntityRec :=
  match e.transform, e.stats with
  | some pos, some st =>
    if !e.healer then e
    else
      let range_radius := st.range_ + UNIT_RADIUS
      let scan := r.foldl (healScanStep pos range_radius) (none, 2)
      match scan.1 with
      | some b => { e with target := some b }
      | none => if e.target.isSome then { e with target := none } else e
  | _, _ => e

/-- `SetTargetSystem::updateHealer(registry)`. -/
def updateHealer (r : Registry) : Registry :=
  r.map (healerStep r)

/-- `SetTargetSystem::update(registry)`: the four passes in source order. -/
def SetTargetSystem.update (r : Registry) : Registry :=
  updateHealer (updateNoTargetEnemy (updateNoTargetPlayer (updateHasTarget r)))

/-! ## Entity removal — `RemoveDeadSystem::update` (`remove_dead_system.cpp`) -/

/-- `RemoveDeadSystem::update(registry)`: destroy every entity carrying
`DeadTag`; destroying a record removes all of its components. -/
def RemoveDeadSystem.update (r : Registry) : Registry :=
  r.filter (fun e => !e.dead)

/-! ## Animation-state reconciliation — `AnimationStateSystem::onAnimationFinished`
(`animation_state_system.cpp`) -/

/-- Handler for one `AnimationFinishedEvent{entity}`: ignore when the
entity is no longer valid; remove `ActionLockTag` when present; then — an
`EnemyComponent` bearer gets `PlayAnimation("idle", loop=true)` if blocked
else `PlayAnimation("walk", loop=true)`; else a `PlayerComponent` bearer
gets `PlayAnimation("idle", loop=true)`; else no follow-up. -/
def onAnimationFinished (r : Registry) (entity : Nat) : Registry × List GEvent :=
  match getEnt r entity with
  | none => (r, [])
  | some e =>
    let r2 := r.map (fun x =>
      if x.eid == entity then
        (if x.actionLock then { x with actionLock := false } else x)
      else x)
    let evs :=
      if e.enemy.isSome then
        if e.blockedBy.isSome then [GEvent.playAnimation entity AnimId.idle true]
        else [GEvent.playAnimation entity AnimId.walk true]
      else if e.player.isSome then [GEvent.playAnimation entity AnimId.idle true]
      else []
    (r2, evs)

/-! ## Tick composition — `GameScene::update` (`game_scene.cpp`)

Per-tick system order: `RemoveDeadSystem`, `FollowPathSystem`,
`BlockSystem` (external melee-engagement detector), `SetTargetSystem`,
`TimerSystem`, `AttackStarterSystem`, then the external movement /
animation systems and the visual systems.  For the claims about tick
ordering only the registries handed to the decision systems matter; the
external collaborators are parameters. -/

/-- The registries handed to the four decision systems within one tick, in
order: the input of `FollowPathSystem` (right after dead-entity removal),
of `SetTargetSystem` (after the external block detector `extBlock`), of
`TimerSystem`, and of `AttackStarterSystem`; `none` when path navigation
hits the fatal missing-waypoint precondition. -/
def tickDecisionInputs (ws : List WaypointNode) (choice : Nat → Nat → Nat)
    (dt : ℚ) (extBlock : Registry → Registry) (r : Registry) :
    Option (List Registry) :=
  let r0 := RemoveDeadSystem.update r
  match FollowPathSystem.update ws choice r0 with
  | none => none
  | some (r1, _) =>
    let r2 := extBlock r1
    let r3 := SetTargetSystem.update r2
    let r4 := TimerSystem.update r3 dt
    some [r0, r2, r3, r4]

/-- Property of an external collaborator: it never (re)creates an entity
with an identifier that is absent from its input registry. -/
def PreservesAbsence (f : Registry → Registry) : Prop :=
  ∀ (i : Nat) (r : Registry), (∀ e ∈ r, e.eid ≠ i) → ∀ e ∈ f r, e.eid ≠ i

/-- Whether entity identifier `i` is absent from every registry in `L`. -/
def absentFromAll (i : Nat) (L : List Registry) : Bool :=
  L.all (fun reg => reg.all (fun x => x.eid != i))

/-- The entity a queued event addresses, if any. -/
def eventEntity : GEvent → Option Nat
  | GEvent.playAnimation j _ _ => some j
  | GEvent.animationFinished j => some j
  | GEvent.enemyArriveHome => none

/-- The spec's removal condition for the target-validation pass, stated in
the spec's own terms: the referent no longer exists, or lacks a position,
or its squared distance exceeds `(range + unit_radius)²` (strictly — the
boundary itself is in-range). -/
def specShouldDropTarget (r : Registry) (pos : Vec2) (st : StatsComponent)
    (tid : Nat) : Bool :=
  !validEnt r tid ||
  (match getEnt r tid with
   | none => true
   | some te =>
     match te.transform with
     | none => true
     | some tpos =>
       (st.range_ + UNIT_RADIUS) * (st.range_ + UNIT_RADIUS) < distanceSquared pos tpos)

/-! ## Concrete inputs for counterexamples and witnesses -/

/-- Stats record with the given hp, max hp, range, attack interval and
attack timer (remaining fields at their defaults). -/
def sampleStats (hp maxhp range intervl timer : ℚ) : StatsComponent :=
  { hp_ := hp, max_hp_ := maxhp, atk_ := 1, def_ := 1, range_ := range,
    atk_interval_ := intervl, atk_timer_ := timer }

/-- A blocked melee enemy whose attack interval (1) is shorter than its
attack animation: ready to attack, about to be dispatched. -/
def c1ent : EntityRec :=
  { eid := 1, enemy := some { target_waypoint_id_ := 0, speed_ := 1 },
    blockedBy := some 2, stats := some (sampleStats 10 10 1 1 5),
    attackReady := true }

/-- State right after the first dispatch of `c1ent`: action-locked, timer
reset, readiness cleared. -/
def c1reg1 : Registry := (AttackStarterSystem.update [c1ent]).1

/-- State after one further cooldown tick of `dt = 2` with no
`AnimationFinished` yet delivered: the timer re-crosses the interval, so
the entity is attack-ready while still action-locked. -/
def c1reg2 : Registry := TimerSystem.update c1reg1 2

/-- A locked melee enemy that is not attack-ready. -/
def w1ent : EntityRec :=
  { eid := 4, enemy := some { target_waypoint_id_ := 0, speed_ := 1 },
    blockedBy := some 2, stats := some (sampleStats 10 10 1 1 0),
    actionLock := true, attackReady := false }

/-- A ranged enemy with a locked target, unblocked and attack-ready. -/
def w2ent : EntityRec :=
  { eid := 5, enemy := some { target_waypoint_id_ := 0, speed_ := 1 },
    target := some 9, stats := some (sampleStats 10 10 1 1 3),
    velocity := some (VelocityValue.vec (2, 2)), attackReady := true }

/-- Waypoint graph exhibiting the zero-direction case: node 0 has the
single successor 1, and both sit at the same position `(0, 0)`. -/
def c3ws : List WaypointNode :=
  [{ id_ := 0, position_ := (0, 0), next_node_ids_ := [1] },
   { id_ := 1, position_ := (0, 0), next_node_ids_ := [] }]

/-- An enemy standing exactly at waypoint 0 = waypoint 1. -/
def c3ent : EntityRec :=
  { eid := 7, enemy := some { target_waypoint_id_ := 0, speed_ := 3 },
    transform := some (0, 0), velocity := some (VelocityValue.vec (0, 0)) }

/-- An entity tagged `Dead` during the previous tick. -/
def c4dead : EntityRec :=
  { eid := 3, dead := true, stats := some (sampleStats 10 10 1 1 0),
    transform := some (0, 0) }

/-- A surviving entity with no combat role. -/
def c4alive : EntityRec := { eid := 4, transform := some (0, 0) }

/-- Registry at the end of tick `N`: one dead entity, one survivor. -/
def c4reg : Registry := [c4dead, c4alive]

/-- The decision-system inputs of tick `N + 1` computed from `c4reg` with a
trivial external block detector. -/
def c4L : List Registry :=
  (tickDecisionInputs [] (fun _ _ => 0) 1 (fun r => r) c4reg).getD []

/-- Stats giving `range_ + UNIT_RADIUS = 25`. -/
def c5st : StatsComponent := sampleStats 10 10 9 1 0

/-- A unit at the origin whose target referent sits at distance exactly
`range_ + UNIT_RADIUS = 25` (the inclusive boundary). -/
def c5holder : EntityRec :=
  { eid := 10, transform := some (0, 0), stats := some c5st, target := some 11 }

/-- The referent of `c5holder`, at squared distance `625 = 25²`. -/
def c5refent : EntityRec := { eid := 11, transform := some (25, 0) }

/-- Registry for the boundary-inclusive validation witness. -/
def c5reg : Registry := [c5holder, c5refent]

/-- Stats giving a healer reach of `range_ + UNIT_RADIUS = 100`. -/
def c6st : StatsComponent := sampleStats 10 10 84 1 0

/-- A healer at the origin. -/
def c6healer : EntityRec :=
  { eid := 20, transform := some (0, 0), stats := some c6st, healer := true,
    player := some { cost_ := 1 } }

/-- An in-range injured ally at hp ratio `8/10`. -/
def c6cand21 : EntityRec :=
  { eid := 21, transform := some (3, 4), stats := some (sampleStats 8 10 1 1 0),
    player := some { cost_ := 1 }, injured := true }

/-- An in-range injured ally at hp ratio `3/10` — the lowest. -/
def c6cand22 : EntityRec :=
  { eid := 22, transform := some (6, 8), stats := some (sampleStats 3 10 1 1 0),
    player := some { cost_ := 1 }, injured := true }

/-- Registry with two injured candidates at ratios `0.8` and `0.3`. -/
def c6reg : Registry := [c6healer, c6cand21, c6cand22]

/-- The `c6` healer again, but already holding a (now stale) target while
no injured candidate remains in the registry. -/
def c6healerStale : EntityRec :=
  { eid := 20, transform := some (0, 0), stats := some c6st, healer := true,
    player := some { cost_ := 1 }, target := some 22 }

/-- The waypoint graph for the childless-waypoint witness. -/
def c7ws : List WaypointNode :=
  [{ id_ := 5, position_ := (2, 3), next_node_ids_ := [] }]

/-- An enemy within the arrival threshold of childless waypoint 5. -/
def c7ent : EntityRec :=
  { eid := 30, enemy := some { target_waypoint_id_ := 5, speed_ := 2 },
    transform := some (1, 1), velocity := some (VelocityValue.vec (0, 0)) }

/-- A stats-bearing entity with `atk_interval_ = 3`, `atk_timer_ = 2`,
not attack-ready: one `dt = 1` tick brings it to readiness. -/
def c8ent : EntityRec := { eid := 40, stats := some (sampleStats 10 10 1 3 2) }

/-- A blocked, action-locked enemy whose attack animation just finished. -/
def c9enemyBlocked : EntityRec :=
  { eid := 50, enemy := some { target_waypoint_id_ := 0, speed_ := 1 },
    blockedBy := some 51, actionLock := true }

/-- An unblocked, action-locked enemy whose attack animation just finished. -/
def c9enemyFree : EntityRec :=
  { eid := 52, enemy := some { target_waypoint_id_ := 0, speed_ := 1 },
    actionLock := true }

/-- A player unit whose action animation just finished. -/
def c9player : EntityRec :=
  { eid := 53, player := some { cost_ := 1 }, actionLock := true }

/-- Registry for the reconciliation witness. -/
def c9reg : Registry := [c9enemyBlocked, c9enemyFree, c9player]

/-- A healer that is itself an injured player unit at hp ratio `2/10`, the
strictly lowest in its registry. -/
def c10healer : EntityRec :=
  { eid := 60, transform := some (0, 0), stats := some (sampleStats 2 10 84 1 0),
    healer := true, player := some { cost_ := 1 }, injured := true }

/-- Another in-range injured ally at the higher hp ratio `5/10`. -/
def c10cand : EntityRec :=
  { eid := 61, transform := some (3, 4), stats := some (sampleStats 5 10 1 1 0),
    player := some { cost_ := 1 }, injured := true }

/-- Registry in which the healer itself is the best heal target. -/
def c10reg : Registry := [c10healer, c10cand]


/-! # Lemmas -/

/-- `validEnt` and `getEnt` agree: a handle is valid exactly when lookup
succeeds. -/
theorem validEnt_eq_isSome (r : Registry) (i : Nat) :
    validEnt r i = (getEnt r i).isSome := by
  induction r with
  | nil => rfl
  | cons x xs ih =>
    simp only [validEnt, getEnt, List.any_cons] at ih ⊢
    cases h : (x.eid == i) <;> simp [List.find?_cons, h, ih]

/-- Group 1 outside its view: no mutation, no event. -/
theorem dispatchMelee_skip (e : EntityRec) (h : meleeEligB e = false) :
    dispatchMelee e = (e, []) := by
  rcases he : e.enemy with _ | en <;> rcases hb : e.blockedBy with _ | b <;>
    rcases hs : e.stats with _ | st <;>
    simp_all [dispatchMelee, meleeEligB]

/-- Group 1 inside its view clears `AttackReadyTag`. -/
theorem dispatchMelee_clears (e : EntityRec) (h : meleeEligB e = true) :
    (dispatchMelee e).1.attackReady = false := by
  rcases he : e.enemy with _ | en <;> rcases hb : e.blockedBy with _ | b <;>
    rcases hs : e.stats with _ | st <;>
    simp_all [dispatchMelee, meleeEligB]

/-- Group 2 outside its view: no mutation, no event. -/
theorem dispatchRanged_skip (e : EntityRec) (h : rangedEligB e = false) :
    dispatchRanged e = (e, []) := by
  rcases he : e.enemy with _ | en <;> rcases ht : e.target with _ | t <;>
    rcases hs : e.stats with _ | st <;> rcases hb : e.blockedBy with _ | b <;>
    simp_all [dispatchRanged, rangedEligB]

/-- Group 2 inside its view clears `AttackReadyTag`. -/
theorem dispatchRanged_clears (e : EntityRec) (h : rangedEligB e = true) :
    (dispatchRanged e).1.attackReady = false := by
  rcases he : e.enemy with _ | en <;> rcases ht : e.target with _ | t <;>
    rcases hs : e.stats with _ | st <;> rcases hb : e.blockedBy with _ | b <;>
    simp_all [dispatchRanged, rangedEligB]

/-- Group 3 outside its view: no mutation, no event. -/
theorem dispatchPlayer_skip (e : EntityRec) (h : playerEligB e = false) :
    dispatchPlayer e = (e, []) := by
  rcases hp : e.player with _ | p <;> rcases ht : e.target with _ | t <;>
    rcases hs : e.stats with _ | st <;>
    simp_all [dispatchPlayer, playerEligB]

/-- Group 3 inside its view clears `AttackReadyTag`. -/
theorem dispatchPlayer_clears (e : EntityRec) (h : playerEligB e = true) :
    (dispatchPlayer e).1.attackReady = false := by
  rcases hp : e.player with _ | p <;> rcases ht : e.target with _ | t <;>
    rcases hs : e.stats with _ | st <;>
    simp_all [dispatchPlayer, playerEligB]

/-- Every dispatch group's view requires `AttackReadyTag` (group 1). -/
theorem meleeEligB_ready (e : EntityRec) (h : meleeEligB e = true) :
    e.attackReady = true := by
  simp only [meleeEligB, Bool.and_eq_true] at h
  exact h.1.2

/-- Every dispatch group's view requires `AttackReadyTag` (group 2). -/
theorem rangedEligB_ready (e : EntityRec) (h : rangedEligB e = true) :
    e.attackReady = true := by
  simp only [rangedEligB, Bool.and_eq_true] at h
  exact h.1.1.2

/-- Every dispatch group's view requires `AttackReadyTag` (group 3). -/
theorem playerEligB_ready (e : EntityRec) (h : playerEligB e = true) :
    e.attackReady = true := by
  simp only [playerEligB, Bool.and_eq_true] at h
  exact h.1.2

/-- A non-ready entity is untouched by the whole dispatch run. -/
theorem attackStarterEntity_not_ready (e : EntityRec)
    (h : e.attackReady = false) : attackStarterEntity e = e := by
  have h1 : meleeEligB e = false := by
    cases hm : meleeEligB e
    · rfl
    · rw [meleeEligB_ready e hm] at h; cases h
  have e1 : dispatchMelee e = (e, []) := dispatchMelee_skip e h1
  have h2 : rangedEligB e = false := by
    cases hm : rangedEligB e
    · rfl
    · rw [rangedEligB_ready e hm] at h; cases h
  have h3 : playerEligB e = false := by
    cases hm : playerEligB e
    · rfl
    · rw [playerEligB_ready e hm] at h; cases h
  unfold attackStarterEntity
  rw [e1, dispatchRanged_skip e h2, dispatchPlayer_skip e h3]

/-- A non-ready entity is not in any dispatch group. -/
theorem dispatchedB_not_ready (e : EntityRec) (h : e.attackReady = false) :
    dispatchedB e = false := by
  have h1 : meleeEligB e = false := by
    cases hm : meleeEligB e
    · rfl
    · rw [meleeEligB_ready e hm] at h; cases h
  have e1 : dispatchMelee e = (e, []) := dispatchMelee_skip e h1
  have h2 : rangedEligB e = false := by
    cases hm : rangedEligB e
    · rfl
    · rw [rangedEligB_ready e hm] at h; cases h
  have h3 : playerEligB e = false := by
    cases hm : playerEligB e
    · rfl
    · rw [playerEligB_ready e hm] at h; cases h
  unfold dispatchedB
  rw [e1, h1]
  simp [dispatchRanged_skip e h2, h2, h3]

/-- A non-dispatched entity is untouched by the whole dispatch run (its
`atk_timer_` in particular is not reset). -/
theorem attackStarterEntity_not_dispatched (e : EntityRec)
    (h : dispatchedB e = false) : attackStarterEntity e = e := by
  unfold dispatchedB at h
  simp only [Bool.or_eq_false_iff] at h
  obtain ⟨⟨h1, h2⟩, h3⟩ := h
  have e1 : dispatchMelee e = (e, []) := dispatchMelee_skip e h1
  rw [e1] at h2 h3
  have e2 : dispatchRanged e = (e, []) := dispatchRanged_skip e h2
  rw [e2] at h3
  unfold attackStarterEntity
  rw [e1, e2, dispatchPlayer_skip e h3]

/-- Dispatch never changes an entity's identifier (group 1). -/
theorem dispatchMelee_eid (e : EntityRec) : (dispatchMelee e).1.eid = e.eid := by
  unfold dispatchMelee
  split <;> try rfl
  split <;> rfl

/-- Dispatch never changes an entity's identifier (group 2). -/
theorem dispatchRanged_eid (e : EntityRec) : (dispatchRanged e).1.eid = e.eid := by
  unfold dispatchRanged
  split <;> try rfl
  split <;> rfl

/-- Dispatch never changes an entity's identifier (group 3). -/
theorem dispatchPlayer_eid (e : EntityRec) : (dispatchPlayer e).1.eid = e.eid := by
  unfold dispatchPlayer
  split <;> try rfl
  split <;> rfl

/-- Every event emitted by group 1 is the attack animation of the (then
attack-ready) visited entity. -/
theorem dispatchMelee_events (e : EntityRec) (ev : GEvent)
    (h : ev ∈ (dispatchMelee e).2) :
    e.attackReady = true ∧ ev = GEvent.playAnimation e.eid AnimId.attack false := by
  rcases he : e.enemy with _ | en <;> rcases hb : e.blockedBy with _ | b <;>
    rcases hs : e.stats with _ | st <;>
    simp_all [dispatchMelee] <;> cases hr : e.attackReady <;> simp_all

/-- Every event emitted by group 2 is the ranged-attack animation of the
(then attack-ready) visited entity. -/
theorem dispatchRanged_events (e : EntityRec) (ev : GEvent)
    (h : ev ∈ (dispatchRanged e).2) :
    e.attackReady = true ∧
      ev = GEvent.playAnimation e.eid AnimId.ranged_attack false := by
  rcases he : e.enemy with _ | en <;> rcases ht : e.target with _ | t <;>
    rcases hs : e.stats with _ | st <;> rcases hb : e.blockedBy with _ | b <;>
    simp_all [dispatchRanged] <;> cases hr : e.attackReady <;> simp_all

/-- Every event emitted by group 3 is the heal or attack animation of the
(then attack-ready) visited entity. -/
theorem dispatchPlayer_events (e : EntityRec) (ev : GEvent)
    (h : ev ∈ (dispatchPlayer e).2) :
    e.attackReady = true ∧
      (ev = GEvent.playAnimation e.eid AnimId.heal false ∨
       ev = GEvent.playAnimation e.eid AnimId.attack false) := by
  rcases hp : e.player with _ | p <;> rcases ht : e.target with _ | t <;>
    rcases hs : e.stats with _ | st <;>
    simp_all [dispatchPlayer] <;> cases hr : e.attackReady <;>
    cases hh : e.healer <;> simp_all

/-- The registry half of one view pass is a map. -/
theorem runPass_fst (step : EntityRec → EntityRec × List GEvent) (r : Registry) :
    (runPass step r).1 = r.map (fun e => (step e).1) := rfl

/-- Every event of one view pass comes from some visited entity. -/
theorem runPass_events (step : EntityRec → EntityRec × List GEvent)
    (r : Registry) (ev : GEvent) (h : ev ∈ (runPass step r).2) :
    ∃ x ∈ r, ev ∈ (step x).2 := by
  simp only [runPass, List.mem_flatten, List.mem_map] at h
  obtain ⟨l, ⟨x, hx, rfl⟩, hev⟩ := h
  exact ⟨x, hx, hev⟩

/-- The registry produced by one `AttackStarterSystem::update` run is the
pointwise composition of the three per-entity pass actions. -/
theorem attackStarter_fst (r : Registry) :
    (AttackStarterSystem.update r).1 = r.map attackStarterEntity := by
  simp only [AttackStarterSystem.update, runPass_fst, List.map_map]
  rfl

/-- An event that is an attack-type `PlayAnimation` for entity `i`
addresses entity `i`. -/
theorem attackTypeFor_entity (i : Nat) (ev : GEvent)
    (h : attackTypeFor i ev = true) : eventEntity ev = some i := by
  cases ev with
  | playAnimation j a l =>
    simp only [attackTypeFor, Bool.and_eq_true, beq_iff_eq] at h
    simp [eventEntity, h.1]
  | enemyArriveHome => simp [attackTypeFor] at h
  | animationFinished j => simp [attackTypeFor] at h

/-- Every event of one `AttackStarterSystem::update` run originates from
one of the three passes, applied to the (suitably advanced) image of some
registry entity. -/
theorem attackStarter_events (r : Registry) (ev : GEvent)
    (h : ev ∈ (AttackStarterSystem.update r).2) :
    (∃ x ∈ r, ev ∈ (dispatchMelee x).2) ∨
    (∃ x ∈ r, ev ∈ (dispatchRanged (dispatchMelee x).1).2) ∨
    (∃ x ∈ r, ev ∈ (dispatchPlayer (dispatchRanged (dispatchMelee x).1).1).2) := by
  simp only [AttackStarterSystem.update] at h
  rcases List.mem_append.mp h with h1 | h3
  · rcases List.mem_append.mp h1 with h1 | h2
    · exact Or.inl (runPass_events _ _ _ h1)
    · obtain ⟨y, hy, hev⟩ := runPass_events _ _ _ h2
      rw [runPass_fst] at hy
      obtain ⟨x, hx, rfl⟩ := List.mem_map.mp hy
      exact Or.inr (Or.inl ⟨x, hx, hev⟩)
  · obtain ⟨y, hy, hev⟩ := runPass_events _ _ _ h3
    rw [runPass_fst, runPass_fst, List.map_map] at hy
    obtain ⟨x, hx, rfl⟩ := List.mem_map.mp hy
    exact Or.inr (Or.inr ⟨x, hx, hev⟩)

/-! # Claim C1 -/

/-- C1, counterexample.  The claim states that an entity carrying
`ActionLockTag` when `AttackStarterSystem` runs is neither given a new
attack-type `PlayAnimation` nor re-locked.  The dispatch views do not
exclude `ActionLockTag`, and `TimerSystem` accrues readiness for locked
entities, so the state is reachable: `c1ent` (a blocked melee enemy with
`atk_interval_ = 1`) is dispatched once (`c1reg1`: locked, timer 0), then
one cooldown tick of `dt = 2` passes with no `AnimationFinished` delivered
(`c1reg2`: locked and attack-ready) — and the next dispatch run emits a new
attack `PlayAnimation` for the still-locked entity and re-locks it (a
direct attack-type-to-attack-type transition). -/
theorem C1_counterexample :
    ((getEnt c1reg2 1).map EntityRec.actionLock = some true) ∧
    ((getEnt c1reg2 1).map EntityRec.attackReady = some true) ∧
    ((AttackStarterSystem.update c1reg2).2.filter (attackTypeFor 1) =
      [GEvent.playAnimation 1 AnimId.attack false]) ∧
    ((getEnt (AttackStarterSystem.update c1reg2).1 1).map EntityRec.actionLock
      = some true) := by
  norm_num [c1reg2, c1reg1, c1ent, TimerSystem.update, timerStep,
    AttackStarterSystem.update, runPass, dispatchMelee, dispatchRanged,
    dispatchPlayer, sampleStats, getEnt, attackTypeFor]

/-- C1, amended: what prevents re-entrant dispatch is the absence of
`AttackReadyTag`, not `ActionLockTag`.  Any entity lacking `AttackReadyTag`
when `AttackStarterSystem` runs — in particular a locked entity whose
`atk_interval_` has not yet re-elapsed since its dispatch — is left
completely unchanged (so it is not re-locked) and receives no attack-type
`PlayAnimation`.  An entity that regains `AttackReadyTag` while still
locked is re-dispatched (see `C1_counterexample`). -/
theorem C1_no_dispatch_without_ready (r : Registry) (e : EntityRec)
    (hnd : (r.map EntityRec.eid).Nodup) (he : e ∈ r)
    (hready : e.attackReady = false) :
    attackStarterEntity e = e ∧ e ∈ (AttackStarterSystem.update r).1 ∧
    (AttackStarterSystem.update r).2.filter (attackTypeFor e.eid) = [] := by
  have hfix : attackStarterEntity e = e := attackStarterEntity_not_ready e hready
  have hinj := List.inj_on_of_nodup_map hnd
  have hmelee : meleeEligB e = false := by
    cases hm : meleeEligB e
    · rfl
    · rw [meleeEligB_ready e hm] at hready; cases hready
  have hmfix : dispatchMelee e = (e, []) := dispatchMelee_skip e hmelee
  have hranged : rangedEligB e = false := by
    cases hm : rangedEligB e
    · rfl
    · rw [rangedEligB_ready e hm] at hready; cases hready
  have hrfix : dispatchRanged e = (e, []) := dispatchRanged_skip e hranged
  refine ⟨hfix, ?_, ?_⟩
  · rw [attackStarter_fst]
    have := List.mem_map_of_mem attackStarterEntity he
    rwa [hfix] at this
  · apply List.filter_eq_nil_iff.mpr
    intro ev hev
    intro hattack
    have hevent : eventEntity ev = some e.eid := attackTypeFor_entity _ _ hattack
    rcases attackStarter_events r ev hev with ⟨x, hx, hevx⟩ | ⟨x, hx, hevx⟩ | ⟨x, hx, hevx⟩
    · obtain ⟨hxready, rfl⟩ := dispatchMelee_events x ev hevx
      have hxeid : x.eid = e.eid := by
        simpa [eventEntity] using hevent
      have hxe : x = e := hinj hx he hxeid
      rw [hxe, hready] at hxready; cases hxready
    · obtain ⟨hxready, rfl⟩ := dispatchRanged_events _ ev hevx
      have hxeid : x.eid = e.eid := by
        simpa [eventEntity, dispatchMelee_eid] using hevent
      have hxe : x = e := hinj hx he hxeid
      rw [hxe, hmfix] at hxready
      rw [hready] at hxready; cases hxready
    · obtain ⟨hxready, hcases⟩ := dispatchPlayer_events _ ev hevx
      rcases hcases with rfl | rfl <;>
      · have hxeid : x.eid = e.eid := by
          simpa [eventEntity, dispatchRanged_eid, dispatchMelee_eid] using hevent
        have hxe : x = e := hinj hx he hxeid
        rw [hxe, hmfix] at hxready
        rw [hrfix] at hxready
        rw [hready] at hxready; cases hxready

/-- C1 amended, witness: a locked, non-ready melee enemy is untouched and
silent for one dispatch run. -/
theorem C1_witness :
    attackStarterEntity w1ent = w1ent ∧
    w1ent ∈ (AttackStarterSystem.update [w1ent]).1 ∧
    (AttackStarterSystem.update [w1ent]).2.filter (attackTypeFor 4) = [] :=
  C1_no_dispatch_without_ready [w1ent] w1ent (by simp) (by simp) rfl

/-! # Claim C2 -/

/-- C2: after one `AttackStarterSystem::update` run, no dispatched entity
still carries `AttackReadyTag`: each of the three groups removes the tag in
the same dispatch that (for the roles that use it) sets `ActionLockTag`,
and no later pass re-attaches it, so the post-state of a dispatched entity
never holds `AttackReadyTag` alongside the freshly-set lock. -/
theorem C2_dispatch_clears_ready (r : Registry) (e : EntityRec) (he : e ∈ r)
    (hd : dispatchedB e = true) :
    (attackStarterEntity e).attackReady = false ∧
    attackStarterEntity e ∈ (AttackStarterSystem.update r).1 := by
  constructor
  · unfold dispatchedB at hd
    simp only [Bool.or_eq_true] at hd
    unfold attackStarterEntity
    rcases hd with (h1 | h2) | h3
    · have hc := dispatchMelee_clears e h1
      have h2f : rangedEligB (dispatchMelee e).1 = false := by
        cases hm : rangedEligB (dispatchMelee e).1
        · rfl
        · rw [rangedEligB_ready _ hm] at hc; cases hc
      rw [dispatchRanged_skip _ h2f]
      have h3f : playerEligB (dispatchMelee e).1 = false := by
        cases hm : playerEligB (dispatchMelee e).1
        · rfl
        · rw [playerEligB_ready _ hm] at hc; cases hc
      rw [dispatchPlayer_skip _ h3f]
      exact hc
    · have hc := dispatchRanged_clears _ h2
      have h3f : playerEligB (dispatchRanged (dispatchMelee e).1).1 = false := by
        cases hm : playerEligB (dispatchRanged (dispatchMelee e).1).1
        · rfl
        · rw [playerEligB_ready _ hm] at hc; cases hc
      rw [dispatchPlayer_skip _ h3f]
      exact hc
    · exact dispatchPlayer_clears _ h3
  · rw [attackStarter_fst]
    exact List.mem_map_of_mem _ he

/-- C2, witness: a ranged enemy with target, unblocked and ready, is
dispatched and ends the run without `AttackReadyTag`. -/
theorem C2_witness :
    (attackStarterEntity w2ent).attackReady = false ∧
    attackStarterEntity w2ent ∈ (AttackStarterSystem.update [w2ent]).1 :=
  C2_dispatch_clears_ready [w2ent] w2ent (by simp) (by decide)

/-! # Claim C3 -/

/-- C3: the spec asserts that a zero direction vector yields zero velocity
with no division by zero, but the source calls `glm::normalize` unguarded
(`followpath_system.cpp:106`), and `glm::normalize((0,0)) = (0,0) *
inversesqrt(0) = (0,0) * inf = (NaN, NaN)` under IEEE-754 semantics (see
`VelocityValue`).  On the failing input — an enemy standing at its target
waypoint 0, whose only successor 1 sits at the same position, so that the
recomputed direction is `(0,0)` — one path-navigation update writes a NaN
velocity, not `(0, 0)`, whichever branch index the random oracle returns. -/
theorem C3_zero_direction_nan (choice : Nat → Nat → Nat) :
    followStep c3ws choice c3ent =
      some ({ c3ent with
                enemy := some { target_waypoint_id_ := 1, speed_ := 3 },
                velocity := some VelocityValue.nanVec }, []) ∧
    FollowPathSystem.update c3ws choice [c3ent] =
      some ([{ c3ent with
                 enemy := some { target_waypoint_id_ := 1, speed_ := 3 },
                 velocity := some VelocityValue.nanVec }], []) := by
  have hstep : followStep c3ws choice c3ent =
      some ({ c3ent with
                enemy := some { target_waypoint_id_ := 1, speed_ := 3 },
                velocity := some VelocityValue.nanVec }, []) := by
    norm_num [followStep, c3ws, c3ent, wpLookup, vsub, normSq, normTimesSpeed,
      Nat.mod_one, Prod.ext_iff]
  refine ⟨hstep, ?_⟩
  simp [FollowPathSystem.update, runPassO, hstep]

/-! # Claim C4 -/

/-- The cooldown tick never changes an entity's identifier. -/
theorem timerStep_eid (dt : ℚ) (e : EntityRec) : (timerStep dt e).eid = e.eid := by
  unfold timerStep
  dsimp only
  split
  · rfl
  · split
    · rfl
    · split <;> rfl

/-- Target validation never changes an entity's identifier. -/
theorem hasTargetStep_eid (r : Registry) (e : EntityRec) :
    (hasTargetStep r e).eid = e.eid := by
  unfold hasTargetStep
  dsimp only
  repeat' split
  all_goals rfl

/-- Player target acquisition never changes an entity's identifier. -/
theorem noTargetPlayerStep_eid (r : Registry) (e : EntityRec) :
    (noTargetPlayerStep r e).eid = e.eid := by
  unfold noTargetPlayerStep
  dsimp only
  repeat' split
  all_goals rfl

/-- Ranged-enemy target acquisition never changes an entity's identifier. -/
theorem noTargetEnemyStep_eid (r : Registry) (e : EntityRec) :
    (noTargetEnemyStep r e).eid = e.eid := by
  unfold noTargetEnemyStep
  dsimp only
  repeat' split
  all_goals rfl

/-- The healer pass never changes an entity's identifier. -/
theorem healerStep_eid (r : Registry) (e : EntityRec) :
    (healerStep r e).eid = e.eid := by
  unfold healerStep
  dsimp only
  repeat' split
  all_goals rfl

/-- Path navigation never changes an entity's identifier. -/
theorem followStep_eid (ws : List WaypointNode) (choice : Nat → Nat → Nat)
    (e x : EntityRec) (ev : List GEvent)
    (h : followStep ws choice e = some (x, ev)) : x.eid = e.eid := by
  unfold followStep at h
  dsimp only at h
  repeat' split at h
  all_goals
    first
    | exact Option.noConfusion h
    | (simp only [Option.some.injEq, Prod.mk.injEq] at h
       obtain ⟨h1, h2⟩ := h
       subst h1
       rfl)

/-- A per-entity pass that preserves identifiers preserves the absence of
an identifier. -/
theorem absence_map (f : EntityRec → EntityRec) (hf : ∀ e, (f e).eid = e.eid)
    (i : Nat) (r : Registry) (h : ∀ e ∈ r, e.eid ≠ i) :
    ∀ x ∈ r.map f, x.eid ≠ i := by
  intro x hx
  obtain ⟨y, hy, rfl⟩ := List.mem_map.mp hx
  rw [hf]
  exact h y hy

/-- A fallible pass whose per-entity action preserves identifiers
preserves the absence of an identifier. -/
theorem runPassO_absence (step : EntityRec → Option (EntityRec × List GEvent))
    (hstep : ∀ e x ev, step e = some (x, ev) → x.eid = e.eid) (i : Nat) :
    ∀ (r r' : Registry) (evs : List GEvent), (∀ e ∈ r, e.eid ≠ i) →
      runPassO step r = some (r', evs) → ∀ x ∈ r', x.eid ≠ i := by
  intro r
  induction r with
  | nil =>
    intro r' evs h hrun
    simp only [runPassO, Option.some.injEq, Prod.mk.injEq] at hrun
    obtain ⟨h1, _⟩ := hrun
    subst h1
    intro x hx
    cases hx
  | cons a as ih =>
    intro r' evs h hrun
    simp only [runPassO] at hrun
    split at hrun
    · exact Option.noConfusion hrun
    · rename_i e2 ev heq
      split at hrun
      · exact Option.noConfusion hrun
      · rename_i r2 evs2 heq2
        simp only [Option.some.injEq, Prod.mk.injEq] at hrun
        obtain ⟨h1, _⟩ := hrun
        subst h1
        intro x hx
        rcases List.mem_cons.mp hx with rfl | hx2
        · rw [hstep a x ev heq]
          exact h a (List.mem_cons_self a as)
        · exact ih r2 evs2 (List.forall_mem_of_forall_mem_cons h) heq2 x hx2

/-- C4: an entity tagged `Dead` during tick `N` (so dead in the registry at
the start of tick `N + 1`) is destroyed, with its whole record and hence
all its components, by `RemoveDeadSystem` at the start of tick `N + 1`,
before any decision system runs; since no decision system creates entities
and the external block detector is assumed not to resurrect identifiers
(`PreservesAbsence`), its identifier is absent from the view of every
decision system of tick `N + 1` (`FollowPathSystem`, `SetTargetSystem`,
`TimerSystem`, `AttackStarterSystem`). -/
theorem C4_dead_absent_next_tick (ws : List WaypointNode)
    (choice : Nat → Nat → Nat) (dt : ℚ) (extBlock : Registry → Registry)
    (r : Registry) (i : Nat) (L : List Registry)
    (hdead : ∀ x ∈ r, x.eid = i → x.dead = true)
    (hext : PreservesAbsence extBlock)
    (hrun : tickDecisionInputs ws choice dt extBlock r = some L) :
    absentFromAll i L = true := by
  have h0 : ∀ x ∈ RemoveDeadSystem.update r, x.eid ≠ i := by
    intro x hx hxe
    simp only [RemoveDeadSystem.update, List.mem_filter, Bool.not_eq_true'] at hx
    rw [hdead x hx.1 hxe] at hx
    exact Bool.noConfusion hx.2
  unfold tickDecisionInputs at hrun
  dsimp only at hrun
  split at hrun
  · exact Option.noConfusion hrun
  · rename_i r1 evs heq
    have h1 : ∀ x ∈ r1, x.eid ≠ i :=
      runPassO_absence _ (followStep_eid ws choice) i _ r1 evs h0 heq
    have h2 : ∀ x ∈ extBlock r1, x.eid ≠ i := hext i r1 h1
    have h3 : ∀ x ∈ SetTargetSystem.update (extBlock r1), x.eid ≠ i := by
      unfold SetTargetSystem.update updateHealer updateNoTargetEnemy
        updateNoTargetPlayer updateHasTarget
      exact absence_map _ (healerStep_eid _) i _
        (absence_map _ (noTargetEnemyStep_eid _) i _
          (absence_map _ (noTargetPlayerStep_eid _) i _
            (absence_map _ (hasTargetStep_eid _) i _ h2)))
    have h4 : ∀ x ∈ TimerSystem.update (SetTargetSystem.update (extBlock r1)) dt,
        x.eid ≠ i := by
      unfold TimerSystem.update
      exact absence_map _ (timerStep_eid dt) i _ h3
    simp only [Option.some.injEq] at hrun
    subst hrun
    simp only [absentFromAll, List.all_cons, List.all_nil, Bool.and_eq_true,
      List.all_eq_true, bne_iff_ne, ne_eq]
    exact ⟨fun x hx => h0 x hx, fun x hx => h2 x hx,
      fun x hx => h3 x hx, ⟨fun x hx => h4 x hx, trivial⟩⟩

/-- C4, witness: in a registry holding a dead entity (identifier 3) and a
survivor, identifier 3 is absent from all four decision-system inputs of
the next tick. -/
theorem C4_witness : absentFromAll 3 c4L = true :=
  C4_dead_absent_next_tick [] (fun _ _ => 0) 1 (fun r => r) c4reg 3 c4L
    (by decide) (fun _ _ h => h)
    (by norm_num [tickDecisionInputs, c4L, c4reg, c4dead, c4alive,
      RemoveDeadSystem.update, FollowPathSystem.update, runPassO, followStep])

/-! # Claim C5 -/

/-- C5: the validation pass removes a (transform- and stats-bearing)
entity's `TargetComponent` exactly when the spec's condition holds — the
referent no longer exists, lacks a position, or its squared distance
strictly exceeds `(range_ + UNIT_RADIUS)²` — and otherwise leaves the
entity completely unchanged; the boundary `distance² = (range_ +
UNIT_RADIUS)²` is in-range and kept. -/
theorem C5_target_validation (r : Registry) (e : EntityRec) (pos : Vec2)
    (st : StatsComponent) (tid : Nat)
    (h1 : e.transform = some pos) (h2 : e.stats = some st)
    (h3 : e.target = some tid) (he : e ∈ r) :
    ((hasTargetStep r e).target = none ↔
      specShouldDropTarget r pos st tid = true) ∧
    (specShouldDropTarget r pos st tid = false → hasTargetStep r e = e) ∧
    hasTargetStep r e ∈ updateHasTarget r := by
  refine ⟨?_, ?_, List.mem_map_of_mem _ he⟩ <;>
  · unfold hasTargetStep specShouldDropTarget
    rw [validEnt_eq_isSome]
    simp only [h1, h2, h3]
    rcases hg : getEnt r tid with _ | te
    · simp [hg]
    · rcases htr : te.transform with _ | tpos
      · simp [hg, htr]
      · by_cases hc : (st.range_ + UNIT_RADIUS) * (st.range_ + UNIT_RADIUS) <
            distanceSquared pos tpos
        · simp [hg, htr, hc]
        · simp [hg, htr, hc, h3]

/-- C5, witness: a referent at squared distance exactly `(range_ +
UNIT_RADIUS)² = 625` is in-range — the holder is left unchanged by the
validation pass. -/
theorem C5_witness :
    hasTargetStep c5reg c5holder = c5holder ∧
    hasTargetStep c5reg c5holder ∈ updateHasTarget c5reg := by
  have h := C5_target_validation c5reg c5holder (0, 0) c5st 11 rfl rfl rfl
    (by simp [c5reg])
  exact ⟨h.2.1 (by norm_num [specShouldDropTarget, c5reg, c5holder, c5refent,
    c5st, sampleStats, getEnt, validEnt, distanceSquared, UNIT_RADIUS]), h.2.2⟩

/-! # Claims C6 and C10 — the healer scan -/

/-- The healer scan leaves its accumulator unchanged over a stretch in
which no in-range candidate improves on the accumulated minimum. -/
theorem healScan_skip (pos : Vec2) (rr : ℚ) :
    ∀ (l : List EntityRec) (acc : Option Nat × ℚ),
      (∀ c ∈ l, isHealCandidate pos rr c = true → ¬(hpPercent c < acc.2)) →
      l.foldl (healScanStep pos rr) acc = acc := by
  intro l
  induction l with
  | nil => intro acc _; rfl
  | cons x xs ih =>
    intro acc h
    simp only [List.foldl_cons]
    have hx : healScanStep pos rr acc x = acc := by
      unfold healScanStep
      by_cases hc : isHealCandidate pos rr x = true
      · rw [if_pos hc, if_neg (h x (List.mem_cons_self x xs) hc)]
      · rw [if_neg hc]
    rw [hx]
    exact ih acc (fun c hc hcand => h c (List.mem_cons_of_mem x hc) hcand)

/-- The healer scan returns the strictly-lowest-ratio in-range candidate:
if `b` is an in-range candidate whose `hp_percent` beats the current
accumulator and is strictly below that of every other in-range candidate,
the fold ends at `(some b.eid, hp_percent b)`. -/
theorem healScan_min (pos : Vec2) (rr : ℚ) (b : EntityRec) :
    ∀ (l : List EntityRec) (acc : Option Nat × ℚ), b ∈ l →
      isHealCandidate pos rr b = true → hpPercent b < acc.2 →
      (∀ c ∈ l, isHealCandidate pos rr c = true → c ≠ b →
        hpPercent b < hpPercent c) →
      l.foldl (healScanStep pos rr) acc = (some b.eid, hpPercent b) := by
  intro l
  induction l with
  | nil => intro acc hb; cases hb
  | cons x xs ih =>
    intro acc hb hcand hlt hmin
    simp only [List.foldl_cons]
    by_cases hxb : x = b
    · subst hxb
      have hstep : healScanStep pos rr acc x = (some x.eid, hpPercent x) := by
        unfold healScanStep
        rw [if_pos hcand, if_pos hlt]
      rw [hstep]
      apply healScan_skip
      intro c hc hcandc
      by_cases hcb : c = x
      · subst hcb; exact lt_irrefl (hpPercent c)
      · exact not_lt.mpr (hmin c (List.mem_cons_of_mem _ hc) hcandc hcb).le
    · have hbxs : b ∈ xs := by
        rcases List.mem_cons.mp hb with h | h
        · exact absurd h.symm hxb
        · exact h
      have hlt2 : hpPercent b < (healScanStep pos rr acc x).2 := by
        unfold healScanStep
        by_cases hcx : isHealCandidate pos rr x = true
        · by_cases hxlt : hpPercent x < acc.2
          · rw [if_pos hcx, if_pos hxlt]
            exact hmin x (List.mem_cons_self x xs) hcx hxb
          · rw [if_pos hcx, if_neg hxlt]; exact hlt
        · rw [if_neg hcx]; exact hlt
      exact ih (healScanStep pos rr acc x) hbxs hcand hlt2
        (fun c hc hc1 hc2 => hmin c (List.mem_cons_of_mem x hc) hc1 hc2)

/-- The healer pass locks the strictly-lowest-ratio in-range candidate,
overwriting any existing target. -/
theorem healerStep_best (r : Registry) (e : EntityRec) (pos : Vec2)
    (st : StatsComponent) (b : EntityRec)
    (hT : e.transform = some pos) (hS : e.stats = some st)
    (hheal : e.healer = true) (hb : b ∈ r)
    (hcand : isHealCandidate pos (st.range_ + UNIT_RADIUS) b = true)
    (hb2 : hpPercent b < 2)
    (hmin : ∀ c ∈ r, isHealCandidate pos (st.range_ + UNIT_RADIUS) c = true →
      c ≠ b → hpPercent b < hpPercent c) :
    (healerStep r e).target = some b.eid := by
  unfold healerStep
  simp only [hT, hS]
  rw [healScan_min pos (st.range_ + UNIT_RADIUS) b r (none, 2) hb hcand hb2 hmin]
  simp [hheal]

/-- The healer pass clears the target when no in-range candidate exists. -/
theorem healerStep_none (r : Registry) (e : EntityRec) (pos : Vec2)
    (st : StatsComponent)
    (hT : e.transform = some pos) (hS : e.stats = some st)
    (hheal : e.healer = true)
    (hnone : ∀ c ∈ r, isHealCandidate pos (st.range_ + UNIT_RADIUS) c = false) :
    (healerStep r e).target = none := by
  unfold healerStep
  simp only [hT, hS]
  rw [healScan_skip pos (st.range_ + UNIT_RADIUS) r (none, 2)
    (fun c hc hcand => by rw [hnone c hc] at hcand; exact Bool.noConfusion hcand)]
  rcases ht : e.target with _ | t <;> simp [hheal, ht]

/-- C6: each tick the healer pass recomputes the healer's target from
scratch: it locks (overwriting any existing target) the in-range
Injured-tagged player ally whose `hp_/max_hp_` ratio is strictly the
lowest among all in-range Injured candidates, and if no Injured candidate
is in range it removes the healer's existing `TargetComponent`, so a
healer never keeps a stale heal target.  (The ratio bound `hp_percent < 2`
reflects the scan's `min_hp_percent = 2.0` sentinel; it holds for every
real Injured unit, whose `hp_ < max_hp_` gives a ratio below 1.) -/
theorem C6_healer_retarget (r : Registry) (e : EntityRec) (pos : Vec2)
    (st : StatsComponent)
    (hT : e.transform = some pos) (hS : e.stats = some st)
    (hheal : e.healer = true) (he : e ∈ r) :
    (∀ b ∈ r, isHealCandidate pos (st.range_ + UNIT_RADIUS) b = true →
      hpPercent b < 2 →
      (∀ c ∈ r, isHealCandidate pos (st.range_ + UNIT_RADIUS) c = true →
        c ≠ b → hpPercent b < hpPercent c) →
      (healerStep r e).target = some b.eid) ∧
    ((∀ c ∈ r, isHealCandidate pos (st.range_ + UNIT_RADIUS) c = false) →
      (healerStep r e).target = none) ∧
    healerStep r e ∈ updateHealer r :=
  ⟨fun b hb hcand hb2 hmin =>
      healerStep_best r e pos st b hT hS hheal hb hcand hb2 hmin,
   fun hnone => healerStep_none r e pos st hT hS hheal hnone,
   List.mem_map_of_mem _ he⟩

/-- C6, witness: with in-range injured allies at ratios `0.8` and `0.3`
the healer locks the `0.3` one; with no injured candidate left, the
healer's stale target is cleared. -/
theorem C6_witness :
    (healerStep c6reg c6healer).target = some 22 ∧
    (healerStep [c6healerStale] c6healerStale).target = none := by
  constructor
  · exact (C6_healer_retarget c6reg c6healer (0, 0) c6st rfl rfl rfl
      (by simp [c6reg])).1 c6cand22 (by simp [c6reg])
      (by norm_num [isHealCandidate, c6cand22, c6st, sampleStats,
        distanceSquared, UNIT_RADIUS])
      (by norm_num [hpPercent, c6cand22, sampleStats])
      (by
        intro c hc hcand hne
        simp only [c6reg, List.mem_cons, List.not_mem_nil, or_false] at hc
        rcases hc with rfl | rfl | rfl
        · norm_num [isHealCandidate, c6healer, c6st, sampleStats] at hcand
        · norm_num [hpPercent, c6cand21, c6cand22, sampleStats]
        · exact absurd rfl hne)
  · exact (C6_healer_retarget [c6healerStale] c6healerStale (0, 0) c6st rfl rfl
      rfl (by simp)).2.1
      (by
        intro c hc
        simp only [List.mem_cons, List.not_mem_nil, or_false] at hc
        subst hc
        norm_num [isHealCandidate, c6healerStale, c6st, sampleStats])

/-- C10: the healer's own candidate scan does not exclude the healer
itself — a healer that is an Injured-tagged player unit is its own
candidate (self-distance 0 is always within `(range_ + UNIT_RADIUS)²`),
and when its hp ratio is strictly the lowest among in-range Injured
candidates, the healer locks itself as its heal target. -/
theorem C10_healer_self_target (r : Registry) (e : EntityRec) (pos : Vec2)
    (st : StatsComponent)
    (hT : e.transform = some pos) (hS : e.stats = some st)
    (hheal : e.healer = true) (he : e ∈ r)
    (hp : e.player.isSome = true) (hinj : e.injured = true)
    (hb2 : hpPercent e < 2)
    (hmin : ∀ c ∈ r, isHealCandidate pos (st.range_ + UNIT_RADIUS) c = true →
      c ≠ e → hpPercent e < hpPercent c) :
    isHealCandidate pos (st.range_ + UNIT_RADIUS) e = true ∧
    (healerStep r e).target = some e.eid := by
  have hd0 : distanceSquared pos pos = 0 := by
    unfold distanceSquared; ring
  have hcand : isHealCandidate pos (st.range_ + UNIT_RADIUS) e = true := by
    unfold isHealCandidate
    simp only [hT, hS]
    simp [hp, hinj, hd0, mul_self_nonneg]
  exact ⟨hcand, healerStep_best r e pos st e hT hS hheal he hcand hb2 hmin⟩

/-- C10, witness: an injured healer at ratio `0.2`, lower than the other
in-range candidate's `0.5`, targets itself. -/
theorem C10_witness :
    isHealCandidate (0, 0) ((sampleStats 2 10 84 1 0).range_ + UNIT_RADIUS)
      c10healer = true ∧
    (healerStep c10reg c10healer).target = some 60 := by
  exact C10_healer_self_target c10reg c10healer (0, 0) (sampleStats 2 10 84 1 0)
    rfl rfl rfl (by simp [c10reg]) rfl rfl
    (by norm_num [hpPercent, c10healer, sampleStats])
    (by
      intro c hc hcand hne
      simp only [c10reg, List.mem_cons, List.not_mem_nil, or_false] at hc
      rcases hc with rfl | rfl
      · exact absurd rfl hne
      · norm_num [hpPercent, c10healer, c10cand, sampleStats])

/-! # Claim C7 -/

/-- C7: a processed enemy within the arrival threshold of a waypoint with
no outgoing edges is handled in one path-navigation update by exactly the
three spec'd effects: one `EnemyArriveHome` event is enqueued, the entity
is tagged `Dead`, and processing of the entity stops (`continue`) — its
target waypoint and velocity are left unchanged.  The update takes no
`dt`, so this holds for any tick length.  The `e.dead = false` hypothesis
records the `emplace<DeadTag>` precondition (EnTT's `emplace` asserts if
the tag is already present); it reflects that `RemoveDeadSystem` has
already destroyed all dead entities earlier in the tick. -/
theorem C7_childless_arrival (ws : List WaypointNode)
    (choice : Nat → Nat → Nat) (e : EntityRec) (en : EnemyComponent)
    (pos : Vec2) (v : VelocityValue) (node : WaypointNode)
    (h1 : e.enemy = some en) (h2 : e.transform = some pos)
    (h3 : e.velocity = some v)
    (h4 : wpLookup ws en.target_waypoint_id_ = some node)
    (h5 : normSq (vsub node.position_ pos) < 25)
    (h6 : node.next_node_ids_ = []) (h7 : e.dead = false) :
    followStep ws choice e =
      some ({ e with dead := true }, [GEvent.enemyArriveHome]) ∧
    FollowPathSystem.update ws choice [e] =
      some ([{ e with dead := true }], [GEvent.enemyArriveHome]) := by
  have hstep : followStep ws choice e =
      some ({ e with dead := true }, [GEvent.enemyArriveHome]) := by
    unfold followStep
    simp only [h1, h2, h3, h4]
    simp [h5, h6]
  exact ⟨hstep, by simp [FollowPathSystem.update, runPassO, hstep]⟩

/-- C7, witness: an enemy at distance² `5 < 25` from childless waypoint 5
is tagged dead with exactly one `EnemyArriveHome`, and its waypoint and
velocity survive unchanged. -/
theorem C7_witness :
    followStep c7ws (fun _ _ => 0) c7ent =
      some ({ c7ent with dead := true }, [GEvent.enemyArriveHome]) ∧
    FollowPathSystem.update c7ws (fun _ _ => 0) [c7ent] =
      some ([{ c7ent with dead := true }], [GEvent.enemyArriveHome]) :=
  C7_childless_arrival c7ws (fun _ _ => 0) c7ent
    { target_waypoint_id_ := 5, speed_ := 2 } (1, 1) (VelocityValue.vec (0, 0))
    { id_ := 5, position_ := (2, 3), next_node_ids_ := [] }
    rfl rfl rfl rfl (by norm_num [normSq, vsub]) rfl rfl

/-! # Claim C8 -/

/-- C8: one cooldown tick adds `dt` to `atk_timer_` of every stats-bearing
entity not already attack-ready (never resetting it), attaches
`AttackReadyTag` exactly when the incremented timer reaches
`atk_interval_`, leaves an already-ready entity completely unchanged
(readiness is kept as exactly one pending tag, idempotently), and an
entity not dispatched by `AttackStarterSystem` is untouched there too — in
particular its timer is reset only by an actual dispatch. -/
theorem C8_cooldown_accrual (dt dt2 : ℚ) (e : EntityRec) (st : StatsComponent)
    (hS : e.stats = some st) (hnr : e.attackReady = false) :
    (timerStep dt e).stats = some { st with atk_timer_ := st.atk_timer_ + dt } ∧
    ((timerStep dt e).attackReady = true ↔
      st.atk_interval_ ≤ st.atk_timer_ + dt) ∧
    ((timerStep dt e).attackReady = true →
      timerStep dt2 (timerStep dt e) = timerStep dt e) ∧
    (dispatchedB (timerStep dt e) = false →
      attackStarterEntity (timerStep dt e) = timerStep dt e) := by
  have hready_pers : ∀ x : EntityRec, x.attackReady = true →
      timerStep dt2 x = x := by
    intro x hx
    unfold timerStep
    dsimp only
    split
    · rfl
    · rw [if_pos hx]
  refine ⟨?_, ?_, fun h => hready_pers _ h,
    fun h => attackStarterEntity_not_dispatched _ h⟩
  · unfold timerStep
    dsimp only
    simp only [hS]
    rw [if_neg (by rw [hnr]; exact Bool.false_ne_true)]
    split <;> rfl
  · unfold timerStep
    dsimp only
    simp only [hS]
    rw [if_neg (by rw [hnr]; exact Bool.false_ne_true)]
    split
    · rename_i hcond
      simpa using hcond
    · rename_i hcond
      simp only [hnr]
      simpa using hcond

/-- C8, witness: with `atk_interval_ = 3`, `atk_timer_ = 2` and `dt = 1`
the timer becomes 3 and readiness attaches; a later tick of `dt = 7`
leaves the entity unchanged, and the undispatched entity keeps its timer
through `AttackStarterSystem`. -/
theorem C8_witness :
    (timerStep 1 c8ent).stats =
      some { sampleStats 10 10 1 3 2 with
               atk_timer_ := (sampleStats 10 10 1 3 2).atk_timer_ + 1 } ∧
    ((timerStep 1 c8ent).attackReady = true ↔
      (sampleStats 10 10 1 3 2).atk_interval_ ≤
        (sampleStats 10 10 1 3 2).atk_timer_ + 1) ∧
    ((timerStep 1 c8ent).attackReady = true →
      timerStep 7 (timerStep 1 c8ent) = timerStep 1 c8ent) ∧
    (dispatchedB (timerStep 1 c8ent) = false →
      attackStarterEntity (timerStep 1 c8ent) = timerStep 1 c8ent) :=
  C8_cooldown_accrual 1 7 c8ent (sampleStats 10 10 1 3 2) rfl rfl

/-! # Claim C9 -/

/-- Lookup commutes with an identifier-preserving per-entity map. -/
theorem getEnt_map (f : EntityRec → EntityRec)
    (hf : ∀ x, (f x).eid = x.eid) (r : Registry) (i : Nat) :
    getEnt (r.map f) i = (getEnt r i).map f := by
  induction r with
  | nil => rfl
  | cons x xs ih =>
    have hfx : ((f x).eid == i) = (x.eid == i) := by rw [hf]
    cases h : (x.eid == i)
    · simpa [getEnt, List.map_cons, List.find?_cons, hfx, h] using ih
    · simp [getEnt, List.map_cons, List.find?_cons, hfx, h]

/-- Removing an already-absent `ActionLockTag` is the identity. -/
theorem setLock_self (x : EntityRec) (h : x.actionLock = false) :
    { x with actionLock := false } = x := by
  cases x
  simp_all

/-- C9: on `AnimationFinished{entity}` the reconciliation handler does
nothing when the entity no longer exists; otherwise it removes
`ActionLockTag` if present (leaving all other entities untouched) and
enqueues exactly one follow-up — for an `EnemyComponent` bearer,
`PlayAnimation("idle", loop=true)` when `BlockedBy` is present, else
`PlayAnimation("walk", loop=true)`; for a `PlayerComponent` bearer (that
is no enemy), `PlayAnimation("idle", loop=true)`; and for an entity with
neither role, no follow-up at all. -/
theorem C9_animation_reconciliation (r : Registry) (i : Nat) :
    (getEnt r i = none → onAnimationFinished r i = (r, [])) ∧
    (∀ e, getEnt r i = some e →
      getEnt (onAnimationFinished r i).1 i = some { e with actionLock := false } ∧
      (∀ x ∈ r, x.eid ≠ i → x ∈ (onAnimationFinished r i).1) ∧
      (e.enemy.isSome = true → e.blockedBy.isSome = true →
        (onAnimationFinished r i).2 = [GEvent.playAnimation i AnimId.idle true]) ∧
      (e.enemy.isSome = true → e.blockedBy = none →
        (onAnimationFinished r i).2 = [GEvent.playAnimation i AnimId.walk true]) ∧
      (e.enemy = none → e.player.isSome = true →
        (onAnimationFinished r i).2 = [GEvent.playAnimation i AnimId.idle true]) ∧
      (e.enemy = none → e.player = none → (onAnimationFinished r i).2 = [])) := by
  constructor
  · intro hg
    unfold onAnimationFinished
    rw [hg]
  · intro e hg
    have hg2 : List.find? (fun x => x.eid == i) r = some e := hg
    have hpe : (e.eid == i) = true := by
      have := List.find?_some hg2
      simpa using this
    have hreg : (onAnimationFinished r i).1 =
        r.map (fun x =>
          if x.eid == i then
            (if x.actionLock then { x with actionLock := false } else x)
          else x) := by
      unfold onAnimationFinished
      rw [hg]
    refine ⟨?_, ?_, ?_, ?_, ?_, ?_⟩
    · rw [hreg, getEnt_map _ ?_ r i]
      · rw [hg]
        have hpei : e.eid = i := by simpa using hpe
        cases hl : e.actionLock
        · rw [setLock_self e hl]
          simp [hpei, hl]
        · simp [hpei, hl]
      · intro x
        by_cases hx : (x.eid == i) = true <;>
          cases hxl : x.actionLock <;> simp [hx, hxl]
    · intro x hx hxi
      rw [hreg]
      have hxf : (x.eid == i) = false := by simpa using hxi
      have : (fun y =>
          if y.eid == i then
            (if y.actionLock then { y with actionLock := false } else y)
          else y) x = x := by simp [hxf]
      rw [← this]
      exact List.mem_map_of_mem _ hx
    all_goals
      intro ha hb
      unfold onAnimationFinished
      rw [hg]
      simp [ha, hb]

/-- C9, witness: for a blocked locked enemy the follow-up is a looping
"idle" and its lock is removed; for an unblocked enemy it is a looping
"walk"; for a player a looping "idle"; a vanished entity is ignored. -/
theorem C9_witness :
    getEnt (onAnimationFinished c9reg 50).1 50 =
      some { c9enemyBlocked with actionLock := false } ∧
    (onAnimationFinished c9reg 50).2 =
      [GEvent.playAnimation 50 AnimId.idle true] ∧
    (onAnimationFinished c9reg 52).2 =
      [GEvent.playAnimation 52 AnimId.walk true] ∧
    (onAnimationFinished c9reg 53).2 =
      [GEvent.playAnimation 53 AnimId.idle true] ∧
    onAnimationFinished c9reg 99 = (c9reg, []) := by
  have h50 := (C9_animation_reconciliation c9reg 50).2 c9enemyBlocked (by rfl)
  have h52 := (C9_animation_reconciliation c9reg 52).2 c9enemyFree (by rfl)
  have h53 := (C9_animation_reconciliation c9reg 53).2 c9player (by rfl)
  have h99 := (C9_animation_reconciliation c9reg 99).1 (by rfl)
  exact ⟨h50.1, h50.2.2.1 rfl rfl, h52.2.2.2.1 rfl rfl, h53.2.2.2.2.1 rfl rfl, h99⟩
